import Mathlib

/-
  Verification development for the bilingual-ARD content script
  (src/content.js).  The script observes live caption paragraphs,
  translates each new caption text once, caches the results, and mirrors
  translated captions into the document while playback is paused.

  The JavaScript is embedded shallowly:
  * the `Map` used as `translationCache` becomes an association list
    whose values are `Option String` (`none` mirrors the `null`
    pending placeholder; an absent key mirrors `undefined`);
  * DOM state relevant to rendering becomes an explicit `Dom` record;
  * asynchronous callbacks become explicit events folded over state.
  Strings are treated as their ASCII content (all selector names and
  markers in the script are ASCII).
-/

/-! ### Translation cache (the `translationCache` Map) -/

/-- The `translationCache` Map: insertion-ordered association list from
normalized caption text to `none` (the `null` pending placeholder) or
`some t` (a stored translation).  An absent key plays the role of
`undefined`. -/
abbrev Cache : Type := List (String × Option String)

/-- `Map.get`: `none` = key absent (`undefined`), `some none` = pending
placeholder (`null`), `some (some t)` = stored translation. -/
def cacheGet : Cache → String → Option (Option String)
  | [], _ => none
  | (k, v) :: rest, t => if k = t then some v else cacheGet rest t

/-- `Map.has`. -/
def cacheHas (c : Cache) (t : String) : Bool :=
  (cacheGet c t).isSome

/-- `Map.set`: updates the existing binding in place, otherwise appends
(JS `Map` preserves insertion order). -/
def cacheSet : Cache → String → Option String → Cache
  | [], t, v => [(t, v)]
  | (k, w) :: rest, t, v =>
    if k = t then (k, v) :: rest else (k, w) :: cacheSet rest t v

/-! ### Caption text normalization (`innerText.trim().replace(/\n/g, ' ')`) -/

/-- Whitespace stripped by `String.prototype.trim` (ASCII part). -/
def isTrimWs (c : Char) : Bool :=
  c = ' ' || c = '\t' || c = '\n' || c = '\r' || c = '\x0b' || c = '\x0c'

/-- `text.trim()`. -/
def jsTrim (s : String) : String :=
  ⟨((s.data.dropWhile isTrimWs).reverse.dropWhile isTrimWs).reverse⟩

/-- `.replace(/\n/g, ' ')`: every newline becomes a space. -/
def replaceNewlines (s : String) : String :=
  ⟨s.data.map (fun c => if c = '\n' then ' ' else c)⟩

/-- `originalP.innerText.trim().replace(/\n/g, ' ')` — the normalized
caption text used as the cache key. -/
def normalizeText (s : String) : String :=
  replaceNewlines (jsTrim s)

/-! ### `storeSubtitle` -/

/-- `storeSubtitle(originalP)`, as a function of the cache and of the
node's raw `innerText`.  Returns the updated cache together with the
text handed to `fetchTranslation`, when a request is dispatched:
empty normalized text returns immediately; a cached key (pending or
stored) is skipped; otherwise the `null` placeholder is installed and
the translation request for the text is dispatched. -/
def storeSubtitle (cache : Cache) (raw : String) : Cache × Option String :=
  let text := normalizeText raw
  if text = "" then (cache, none)
  else if cacheHas cache text then (cache, none)
  else (cacheSet cache text none, some text)

/-- The resolution handler in `storeSubtitle`:
`fetchTranslation(text).then((translatedText) => { if (translatedText) … })`.
Given the resolved `translatedText`, returns the updated cache and
whether `checkAndShowSubtitles` was invoked.  An empty (falsy) result
changes nothing. -/
def resolveHandler (cache : Cache) (text translated : String) : Cache × Bool :=
  if translated = "" then (cache, false)
  else (cacheSet cache text (some translated), true)

/-! ### Basic cache lemmas -/

theorem cacheGet_set_self (c : Cache) (t : String) (v : Option String) :
    cacheGet (cacheSet c t v) t = some v := by
  induction c with
  | nil => simp [cacheSet, cacheGet]
  | cons kv rest ih =>
    obtain ⟨k, w⟩ := kv
    by_cases h : k = t
    · simp [cacheSet, cacheGet, h]
    · simp [cacheSet, cacheGet, h, ih]

theorem cacheGet_set_other (c : Cache) (t u : String) (v : Option String)
    (h : u ≠ t) : cacheGet (cacheSet c t v) u = cacheGet c u := by
  have h' : t ≠ u := Ne.symm h
  induction c with
  | nil => simp [cacheSet, cacheGet, h']
  | cons kv rest ih =>
    obtain ⟨k, w⟩ := kv
    by_cases hk : k = t
    · subst hk
      simp [cacheSet, cacheGet, h']
    · simp [cacheSet, cacheGet, hk, ih]

theorem cacheHas_set (c : Cache) (t u : String) (v : Option String)
    (h : cacheHas c u = true) : cacheHas (cacheSet c t v) u = true := by
  by_cases he : u = t
  · subst he
    simp [cacheHas, cacheGet_set_self]
  · simpa [cacheHas, cacheGet_set_other c t u v he] using h

/-- C10 helper: `storeSubtitle` on empty normalized text is a no-op. -/
theorem storeSubtitle_empty_helper (cache : Cache) (raw : String)
    (h : normalizeText raw = "") : storeSubtitle cache raw = (cache, none) := by
  simp [storeSubtitle, h]

/-- **C10** — If a caption node's normalized text (trimmed, newlines
replaced by spaces) is empty, `storeSubtitle` returns without any
effect: the translation cache is unchanged (no entry is created for the
empty string) and no translation request is dispatched. -/
theorem storeSubtitle_empty_text_no_effect (cache : Cache) (raw : String)
    (h : normalizeText raw = "") :
    storeSubtitle cache raw = (cache, none) := by
  exact storeSubtitle_empty_helper cache raw h

/-- Witness for C10 at the concrete raw text `" \n\t "` and a nonempty
cache. -/
theorem storeSubtitle_empty_text_no_effect_witness :
    storeSubtitle [("hallo", some "hello")] " \n\t " =
      ([("hallo", some "hello")], none) :=
  storeSubtitle_empty_text_no_effect [("hallo", some "hello")] " \n\t " (by decide)

/-! ### Sentence casing (`.toLowerCase().replace(/(^\w|\.\s*\w)/g, m => m.toUpperCase())`) -/

/-- The regex class `\w` (ASCII): letters, digits, underscore. -/
def isWordChar (c : Char) : Bool :=
  c.isAlpha || c.isDigit || c = '_'

/-- The regex class `\s` (ASCII part). -/
def isSpaceJS (c : Char) : Bool :=
  isTrimWs c

/-- Left-to-right scan of the global replace.  Mode `false`: normal
scanning, where a match can only start at a `'.'` (the `\.\s*\w`
alternative).  Mode `true`: a `'.'` has been consumed and the scanner is
inside the `\s*` part; the first word character ends the match and is
uppercased (uppercasing `'.'` and whitespace is the identity, so only
the word character changes). -/
def caseScan : Bool → List Char → List Char
  | _, [] => []
  | false, c :: rest =>
    if c = '.' then '.' :: caseScan true rest else c :: caseScan false rest
  | true, c :: rest =>
    if isSpaceJS c then c :: caseScan true rest
    else if isWordChar c then c.toUpper :: caseScan false rest
    else if c = '.' then '.' :: caseScan true rest
    else c :: caseScan false rest

/-- The full global replace `/(^\w|\.\s*\w)/g` with `toUpperCase` on the
match: the anchored alternative `^\w` can only fire at position 0;
afterwards scanning continues with `caseScan`. -/
def jsReplaceCase : List Char → List Char
  | [] => []
  | c :: rest =>
    if isWordChar c then c.toUpper :: caseScan false rest
    else caseScan false (c :: rest)

/-- `translatedText.toLowerCase().replace(/(^\w|\.\s*\w)/g, m => m.toUpperCase())`. -/
def jsSentenceCase (s : String) : String :=
  ⟨jsReplaceCase (s.data.map Char.toLower)⟩

/-! ### `fetchTranslation` -/

/-- Outcome of the external `fetch` to the translation endpoint.
`success frags` carries the text fragments `result[0].map(item => item[0])`
extracted from a well-formed response; `networkError` is a rejected
fetch/json promise and `malformed` a response on which the extraction
throws. -/
inductive FetchOutcome
  | networkError
  | malformed
  | success (frags : List String)
deriving DecidableEq

/-- `fetchTranslation(text)`: joins the response fragments with single
spaces and sentence-cases the result; the `catch` turns every failure
into the empty string. -/
def fetchTranslation : FetchOutcome → String
  | FetchOutcome.networkError => ""
  | FetchOutcome.malformed => ""
  | FetchOutcome.success frags => jsSentenceCase (String.intercalate " " frags)

/-- **C3 counterexample** — on the response fragments
`["Hallo", " Welt"]` the client does not produce `"Hallo welt"`: the
second fragment's own leading space survives `join(" ")`, so two spaces
separate the words. -/
theorem fetchTranslation_join_counterexample :
    fetchTranslation (FetchOutcome.success ["Hallo", " Welt"]) ≠ "Hallo welt" := by
  decide

/-- **C3 (amended)** — The Translation Client concatenates the
response's text fragments with single spaces and then sentence-cases
the result; for the response fragments `["Hallo", " Welt"]` it produces
exactly `"Hallo  welt"`: first letter capitalized, rest lowercase, and
two spaces between the words because the second fragment begins with a
space that the single-space join preserves. -/
theorem fetchTranslation_join_and_case :
    (∀ frags, fetchTranslation (FetchOutcome.success frags) =
      jsSentenceCase (String.intercalate " " frags)) ∧
    fetchTranslation (FetchOutcome.success ["Hallo", " Welt"]) = "Hallo  welt" :=
  ⟨fun _ => rfl, by decide⟩

/-! ### Casing lemmas for C8 -/

theorem char_toNat_ofNat_valid (n : Nat) (h : n.isValidChar) :
    (Char.ofNat n).toNat = n := by
  rw [Char.ofNat, dif_pos h]
  rfl

theorem char_toLower_toUpper (c : Char) :
    Char.toLower (Char.toUpper c) = Char.toLower c := by
  simp only [Char.toUpper, Char.toLower]
  by_cases h : c.toNat ≥ 97 ∧ c.toNat ≤ 122
  · have hv : Nat.isValidChar (c.toNat - 32) := Or.inl (by omega)
    have ht : (Char.ofNat (c.toNat - 32)).toNat = c.toNat - 32 :=
      char_toNat_ofNat_valid _ hv
    rw [if_pos h, ht, if_pos (by omega : c.toNat - 32 ≥ 65 ∧ c.toNat - 32 ≤ 90),
      if_neg (by omega : ¬(c.toNat ≥ 65 ∧ c.toNat ≤ 90)),
      (by omega : c.toNat - 32 + 32 = c.toNat), Char.ofNat_toNat]
  · rw [if_neg h]

theorem char_toLower_toLower (c : Char) :
    Char.toLower (Char.toLower c) = Char.toLower c := by
  simp only [Char.toLower]
  by_cases h : c.toNat ≥ 65 ∧ c.toNat ≤ 90
  · have hv : Nat.isValidChar (c.toNat + 32) := Or.inl (by omega)
    have ht : (Char.ofNat (c.toNat + 32)).toNat = c.toNat + 32 :=
      char_toNat_ofNat_valid _ hv
    rw [if_pos h, ht, if_neg (by omega : ¬(c.toNat + 32 ≥ 65 ∧ c.toNat + 32 ≤ 90))]
  · simp only [if_neg h]

/-- Uppercasing done by the replace step is invisible after a further
`toLowerCase`: mapping `toLower` over `caseScan mode l` gives back
`map toLower l`. -/
theorem map_toLower_caseScan (l : List Char) :
    ∀ mode, (caseScan mode l).map Char.toLower = l.map Char.toLower := by
  induction l with
  | nil => intro mode; cases mode <;> rfl
  | cons c rest ih =>
    intro mode
    cases mode
    · by_cases h : c = '.'
      · simp [caseScan, h, ih]
      · simp [caseScan, h, ih]
    · by_cases hs : isSpaceJS c
      · simp [caseScan, hs, ih]
      · by_cases hw : isWordChar c
        · simp [caseScan, hs, hw, ih, char_toLower_toUpper]
        · by_cases h : c = '.'
          · subst h
            have h1 : isSpaceJS '.' = false := by decide
            have h2 : isWordChar '.' = false := by decide
            simp [caseScan, h1, h2, ih]
          · simp [caseScan, hs, hw, h, ih]

theorem map_toLower_jsReplaceCase (l : List Char) :
    (jsReplaceCase l).map Char.toLower = l.map Char.toLower := by
  cases l with
  | nil => rfl
  | cons c rest =>
    by_cases hw : isWordChar c
    · simp [jsReplaceCase, hw, map_toLower_caseScan, char_toLower_toUpper]
    · simp [jsReplaceCase, hw, map_toLower_caseScan]

/-- **C8** — The sentence-casing function (lowercase the whole string,
then uppercase the first letter and each letter following a
sentence-terminal period) is idempotent: `casing (casing s) = casing s`
for every string `s`, in particular for every already-correctly-cased
single-sentence input. -/
theorem jsSentenceCase_idempotent (s : String) :
    jsSentenceCase (jsSentenceCase s) = jsSentenceCase s := by
  show String.mk (jsReplaceCase ((jsReplaceCase (s.data.map Char.toLower)).map Char.toLower))
      = String.mk (jsReplaceCase (s.data.map Char.toLower))
  rw [map_toLower_jsReplaceCase]
  have : (s.data.map Char.toLower).map Char.toLower = s.data.map Char.toLower := by
    rw [List.map_map]
    exact List.map_congr_left (fun c _ => char_toLower_toLower c)
  rw [this]

/-! ### C7: failures never populate the cache -/

/-- **C7** — For every input text, if the external translation call
fails in any way (network error or malformed response),
`fetchTranslation` returns the empty string rather than propagating the
error, and the resolution handler in `storeSubtitle` then leaves the
cache unchanged — in particular the entry for that text stays in the
Pending state — stores no Ready value and triggers no render refresh. -/
theorem fetchTranslation_failure_leaves_pending :
    (∀ o, o = FetchOutcome.networkError ∨ o = FetchOutcome.malformed →
      fetchTranslation o = "") ∧
    (∀ cache text, resolveHandler cache text "" = (cache, false)) ∧
    (∀ cache text, cacheGet cache text = some none →
      cacheGet (resolveHandler cache text "").1 text = some none) := by
  refine ⟨fun o h => ?_, fun cache text => rfl, fun cache text h => ?_⟩
  · rcases h with h | h <;> subst h <;> rfl
  · simpa [resolveHandler] using h

/-- Witness for C7: a failed fetch resolves to `""` and the handler
leaves a concrete pending entry pending, with no refresh. -/
theorem fetchTranslation_failure_leaves_pending_witness :
    fetchTranslation FetchOutcome.networkError = "" ∧
    resolveHandler [("hallo", none)] "hallo" "" = ([("hallo", none)], false) ∧
    cacheGet (resolveHandler [("hallo", none)] "hallo" "").1 "hallo" = some none :=
  ⟨fetchTranslation_failure_leaves_pending.1 FetchOutcome.networkError (Or.inl rfl),
   fetchTranslation_failure_leaves_pending.2.1 [("hallo", none)] "hallo",
   fetchTranslation_failure_leaves_pending.2.2 [("hallo", none)] "hallo" (by decide)⟩

/-! ### C1: a session's cache events and request dedup -/

/-- One cache-relevant callback of a session: a caption submission
(`storeSubtitle` on a node with the given raw `innerText`) or the
resolution of a dispatched request for `text` with the given fetch
outcome. -/
inductive CacheEv
  | submit (raw : String)
  | resolve (text : String) (outcome : FetchOutcome)

/-- Effect of one event on the cache, together with the text of the
translation request it dispatches, if any.  Only `storeSubtitle` ever
dispatches. -/
def cacheStep (cache : Cache) : CacheEv → Cache × Option String
  | CacheEv.submit raw => storeSubtitle cache raw
  | CacheEv.resolve text outcome =>
    ((resolveHandler cache text (fetchTranslation outcome)).1, none)

/-- Runs a list of session events, returning the final cache and the
list of dispatched request texts in order. -/
def cacheRun (cache : Cache) : List CacheEv → Cache × List String
  | [] => (cache, [])
  | e :: es =>
    let s := cacheStep cache e
    let rest := cacheRun s.1 es
    (rest.1, s.2.toList ++ rest.2)

/-- A key present in the cache stays present across every event. -/
theorem cacheHas_cacheStep (cache : Cache) (e : CacheEv) (t : String)
    (h : cacheHas cache t = true) : cacheHas (cacheStep cache e).1 t = true := by
  cases e with
  | submit raw =>
    show cacheHas (storeSubtitle cache raw).1 t = true
    unfold storeSubtitle
    by_cases h1 : normalizeText raw = ""
    · simpa [h1] using h
    · by_cases h2 : cacheHas cache (normalizeText raw)
      · simpa [h1, h2] using h
      · simpa [h1, h2] using cacheHas_set cache (normalizeText raw) t none h
  | resolve text outcome =>
    show cacheHas (resolveHandler cache text (fetchTranslation outcome)).1 t = true
    unfold resolveHandler
    by_cases h1 : fetchTranslation outcome = ""
    · simpa [h1] using h
    · simpa [h1] using
        cacheHas_set cache text t (some (fetchTranslation outcome)) h

/-- Core dedup bound: a run dispatches a request for `T` at most once,
and never if `T` is already cached. -/
theorem cacheRun_count_le (evts : List CacheEv) :
    ∀ cache T, ((cacheRun cache evts).2.count T) ≤
      (if cacheHas cache T then 0 else 1) := by
  induction evts with
  | nil =>
    intro cache T
    by_cases h : cacheHas cache T <;> simp [cacheRun, h]
  | cons e es ih =>
    intro cache T
    have hmono := cacheHas_cacheStep cache e T
    cases e with
    | resolve text outcome =>
      have : (cacheRun cache (CacheEv.resolve text outcome :: es)).2 =
          (cacheRun (cacheStep cache (CacheEv.resolve text outcome)).1 es).2 := by
        simp [cacheRun, cacheStep]
      rw [this]
      by_cases h : cacheHas cache T
      · have h2 := hmono h
        exact le_trans (ih (cacheStep cache (CacheEv.resolve text outcome)).1 T)
          (by simp [h, h2])
      · exact le_trans (ih (cacheStep cache (CacheEv.resolve text outcome)).1 T)
          (by by_cases h2 : cacheHas (cacheStep cache (CacheEv.resolve text outcome)).1 T <;>
            simp [h, h2])
    | submit raw =>
      show ((cacheStep cache (CacheEv.submit raw)).2.toList ++
        (cacheRun (cacheStep cache (CacheEv.submit raw)).1 es).2).count T ≤ _
      by_cases h1 : normalizeText raw = ""
      · have hs : cacheStep cache (CacheEv.submit raw) = (cache, none) := by
          simp [cacheStep, storeSubtitle, h1]
        rw [hs]
        simpa using ih cache T
      · by_cases h2 : cacheHas cache (normalizeText raw)
        · have hs : cacheStep cache (CacheEv.submit raw) = (cache, none) := by
            simp [cacheStep, storeSubtitle, h1, h2]
          rw [hs]
          simpa using ih cache T
        · have hs : cacheStep cache (CacheEv.submit raw) =
              (cacheSet cache (normalizeText raw) none, some (normalizeText raw)) := by
            simp [cacheStep, storeSubtitle, h1, h2]
          rw [hs]
          by_cases hT : T = normalizeText raw
          · have hhas : cacheHas (cacheSet cache (normalizeText raw) none) T = true := by
              rw [hT]
              simp [cacheHas, cacheGet_set_self]
            have hzero :
                ((cacheRun (cacheSet cache (normalizeText raw) none) es).2).count T = 0 := by
              have hrec := ih (cacheSet cache (normalizeText raw) none) T
              rw [hhas] at hrec
              simpa using hrec
            have h2f : cacheHas cache T = false := by
              rw [hT]
              simpa using h2
            rw [hT] at hzero h2f
            simp [List.count_cons, hzero, hT, h2f]
          · have hhas : cacheHas (cacheSet cache (normalizeText raw) none) T =
                cacheHas cache T := by
              simp [cacheHas, cacheGet_set_other cache (normalizeText raw) T none hT]
            have hrec := ih (cacheSet cache (normalizeText raw) none) T
            rw [hhas] at hrec
            have hne : ¬(T = normalizeText raw) := hT
            simpa [List.count_cons, hne] using hrec

/-- **C1** — For every caption text `T` submitted any number of times
within one session, `fetchTranslation` is dispatched at most once for
`T`: the first submission installs the Pending placeholder before
dispatch (and only dispatches for uncached text), every later lookup of
`T` finds a non-absent entry (presence is preserved by every event) and
does not re-dispatch, and an entry never transitions from Ready back to
Pending under any event of the session. -/
theorem translation_dispatched_at_most_once :
    (∀ cache evts T, ((cacheRun cache evts).2.count T) ≤ 1) ∧
    (∀ cache raw t, (storeSubtitle cache raw).2 = some t →
      cacheHas cache t = false ∧
      cacheGet (storeSubtitle cache raw).1 t = some none) ∧
    (∀ cache e T, cacheHas cache T = true → cacheHas (cacheStep cache e).1 T = true) ∧
    (∀ cache e T v, cacheGet cache T = some (some v) →
      ∃ w, cacheGet (cacheStep cache e).1 T = some (some w)) := by
  refine ⟨fun cache evts T => ?_, fun cache raw t h => ?_, cacheHas_cacheStep, ?_⟩
  · exact le_trans (cacheRun_count_le evts cache T)
      (by by_cases h : cacheHas cache T <;> simp [h])
  · unfold storeSubtitle at h ⊢
    by_cases h1 : normalizeText raw = ""
    · simp [h1] at h
    · by_cases h2 : cacheHas cache (normalizeText raw)
      · simp [h1, h2] at h
      · simp only [h1, h2] at h ⊢
        simp at h
        subst h
        exact ⟨Bool.not_eq_true _ ▸ (by simpa using h2), by
          simp [cacheGet_set_self]⟩
  · intro cache e T v h
    cases e with
    | submit raw =>
      show ∃ w, cacheGet (storeSubtitle cache raw).1 T = some (some w)
      unfold storeSubtitle
      by_cases h1 : normalizeText raw = ""
      · exact ⟨v, by simpa [h1] using h⟩
      · by_cases h2 : cacheHas cache (normalizeText raw)
        · exact ⟨v, by simpa [h1, h2] using h⟩
        · have hT : T ≠ normalizeText raw := by
            intro he
            subst he
            simp [cacheHas, h] at h2
          exact ⟨v, by
            simpa [h1, h2, cacheGet_set_other cache (normalizeText raw) T none hT]
              using h⟩
    | resolve text outcome =>
      show ∃ w, cacheGet (resolveHandler cache text (fetchTranslation outcome)).1 T =
        some (some w)
      unfold resolveHandler
      by_cases h1 : fetchTranslation outcome = ""
      · exact ⟨v, by simpa [h1] using h⟩
      · by_cases hT : T = text
        · subst hT
          exact ⟨fetchTranslation outcome, by simp [h1, cacheGet_set_self]⟩
        · exact ⟨v, by
            simpa [h1, cacheGet_set_other cache text T (some (fetchTranslation outcome)) hT]
              using h⟩

/-- Witness for C1: concrete double submission of `"hallo"` dispatches
once; a dispatching submission from the empty cache marks `"hallo"`
pending; presence and readiness survive a further submission. -/
theorem translation_dispatched_at_most_once_witness :
    ((cacheRun [] [CacheEv.submit "hallo", CacheEv.submit "hallo"]).2.count "hallo") ≤ 1 ∧
    (cacheHas ([] : Cache) "hallo" = false ∧
      cacheGet (storeSubtitle [] "hallo").1 "hallo" = some none) ∧
    cacheHas (cacheStep [("hallo", none)] (CacheEv.submit "hallo")).1 "hallo" = true ∧
    (∃ w, cacheGet (cacheStep [("hallo", some "hello")] (CacheEv.submit "hallo")).1 "hallo" =
      some (some w)) :=
  ⟨translation_dispatched_at_most_once.1 [] _ "hallo",
   translation_dispatched_at_most_once.2.1 [] "hallo" "hallo" (by decide),
   translation_dispatched_at_most_once.2.2.1 [("hallo", none)] (CacheEv.submit "hallo")
     "hallo" (by decide),
   translation_dispatched_at_most_once.2.2.2 [("hallo", some "hello")]
     (CacheEv.submit "hallo") "hallo" "hello" (by decide)⟩

/-! ### DOM model for rendering (`checkAndShowSubtitles` / `showStoredSubtitle`) -/

/-- A `.translated-subtitle` element: its `innerText` and its
`style.display`. -/
structure TransEl where
  text : String
  display : String
deriving DecidableEq

/-- A parent node of a caption paragraph, holding the element returned
by `parentNode.querySelector(".translated-subtitle")`, if one exists. -/
structure ParentNode where
  transEl : Option TransEl
deriving DecidableEq

/-- A caption paragraph matching `.ardplayer-untertitel p`: its raw
`innerText` and the index of its parent node (`none` when the node is
detached, i.e. `parentNode` is `null`). -/
structure CaptionP where
  innerText : String
  parent : Option Nat
deriving DecidableEq

/-- The document state the render functions read and write: the class
list of the `.ardplayer-button-playpause` control (`none` when the
control is missing), the parent nodes, and the caption paragraphs. -/
structure Dom where
  playPause : Option (List String)
  parents : List ParentNode
  paras : List CaptionP
deriving DecidableEq

/-- Replace the parent node at index `pid` (no-op on an invalid index). -/
def updateParentAt (ps : List ParentNode) (pid : Nat) (f : ParentNode → ParentNode) :
    List ParentNode :=
  ps.mapIdx (fun i p => if i = pid then f p else p)

/-- The body of the `forEach` in `showStoredSubtitle` for a single
caption paragraph: skip detached nodes, look the normalized text up in
the cache, and only for a non-empty stored translation ensure the
`.translated-subtitle` sibling exists and set its text and
`display: block` (creation and reuse both end in that same write). -/
def processPara (cache : Cache) (dom : Dom) (p : CaptionP) : Dom :=
  match p.parent with
  | none => dom
  | some pid =>
    let text := normalizeText p.innerText
    match cacheGet cache text with
    | some (some v) =>
      if v = "" then dom
      else { dom with
             parents := updateParentAt dom.parents pid
               (fun _ => ⟨some ⟨v, "block"⟩⟩) }
    | _ => dom

/-- `showStoredSubtitle()`: early return when no caption paragraph is
present, otherwise one pass over all current caption paragraphs. -/
def showStoredSubtitle (cache : Cache) (dom : Dom) : Dom :=
  if dom.paras.isEmpty then dom
  else dom.paras.foldl (processPara cache) dom

/-- `checkAndShowSubtitles()`: reads the playback control's current
class list; only when it contains `"ardplayer-icon-play"` (the paused
visual state) does it run `showStoredSubtitle`. -/
def checkAndShowSubtitles (cache : Cache) (dom : Dom) : Dom :=
  let isPaused :=
    match dom.playPause with
    | some cls => cls.contains "ardplayer-icon-play"
    | none => false
  if isPaused then showStoredSubtitle cache dom else dom

/-- **C2** — Whenever `checkAndShowSubtitles` runs while the playback
control is not in the paused visual state (its class list does not
contain the `"ardplayer-icon-play"` marker — including when the control
is absent), it performs zero DOM writes: the document is returned
unchanged, regardless of the contents of the translation cache. -/
theorem checkAndShowSubtitles_not_paused_no_writes (cache : Cache) (dom : Dom)
    (h : ∀ cls, dom.playPause = some cls → cls.contains "ardplayer-icon-play" = false) :
    checkAndShowSubtitles cache dom = dom := by
  unfold checkAndShowSubtitles
  cases hp : dom.playPause with
  | none => simp [hp]
  | some cls =>
    have hc : "ardplayer-icon-play" ∉ cls := by simpa using h cls hp
    simp [hp, hc]

/-- Witness for C2: a playing (non-paused) control, a cache holding a
ready translation for the present caption — still no write. -/
theorem checkAndShowSubtitles_not_paused_no_writes_witness :
    checkAndShowSubtitles [("hallo", some "Hello")]
      ⟨some ["ardplayer-icon-pause"], [⟨none⟩], [⟨"hallo", some 0⟩]⟩ =
      ⟨some ["ardplayer-icon-pause"], [⟨none⟩], [⟨"hallo", some 0⟩]⟩ :=
  checkAndShowSubtitles_not_paused_no_writes [("hallo", some "Hello")]
    ⟨some ["ardplayer-icon-pause"], [⟨none⟩], [⟨"hallo", some 0⟩]⟩
    (fun cls hc => by cases hc; decide)

/-- Helper for C5: the per-paragraph step is the identity whenever the
cache entry for the paragraph's normalized text is absent or pending. -/
theorem processPara_skip (cache : Cache) (dom : Dom) (p : CaptionP)
    (h : cacheGet cache (normalizeText p.innerText) = none ∨
      cacheGet cache (normalizeText p.innerText) = some none) :
    processPara cache dom p = dom := by
  unfold processPara
  cases hp : p.parent with
  | none => rfl
  | some pid =>
    rcases h with h | h <;> simp [h]

/-- Helper for C5: a fold of identity steps is the identity. -/
theorem foldl_processPara_id (cache : Cache) (l : List CaptionP)
    (h : ∀ q, q ∈ l → ∀ d : Dom, processPara cache d q = d) :
    ∀ dom : Dom, l.foldl (processPara cache) dom = dom := by
  induction l with
  | nil => intro dom; rfl
  | cons q rest ih =>
    intro dom
    rw [List.foldl_cons, h q (List.mem_cons_self q rest) dom]
    exact ih (fun r hr d => h r (List.mem_cons_of_mem q hr) d) dom

/-- **C5** — During a refresh pass (`showStoredSubtitle`), a caption
paragraph whose normalized text has a cache entry that is Absent or
Pending contributes nothing: its step creates no translated sibling
element and leaves any already-existing translated sibling completely
untouched (the document state is returned as is); consequently a pass
in which every present paragraph's entry is Absent or Pending leaves
the whole document unchanged. -/
theorem showStoredSubtitle_absent_pending_untouched (cache : Cache) (dom : Dom)
    (p : CaptionP)
    (h : cacheGet cache (normalizeText p.innerText) = none ∨
      cacheGet cache (normalizeText p.innerText) = some none) :
    processPara cache dom p = dom ∧
    ((∀ q, q ∈ dom.paras → cacheGet cache (normalizeText q.innerText) = none ∨
        cacheGet cache (normalizeText q.innerText) = some none) →
      showStoredSubtitle cache dom = dom) := by
  refine ⟨processPara_skip cache dom p h, fun hall => ?_⟩
  unfold showStoredSubtitle
  by_cases he : dom.paras.isEmpty
  · simp [he]
  · simp only [he, if_false]
    exact foldl_processPara_id cache dom.paras
      (fun q hq d => processPara_skip cache d q (hall q hq)) dom

/-- Witness for C5: a pending entry for the present caption, with an
already-existing translated sibling holding stale text — neither the
step nor the whole pass touches it. -/
theorem showStoredSubtitle_absent_pending_untouched_witness :
    processPara [("hallo", none)]
      ⟨none, [⟨some ⟨"old text", "block"⟩⟩], [⟨"hallo", some 0⟩]⟩
      ⟨"hallo", some 0⟩ =
      ⟨none, [⟨some ⟨"old text", "block"⟩⟩], [⟨"hallo", some 0⟩]⟩ ∧
    showStoredSubtitle [("hallo", none)]
      ⟨none, [⟨some ⟨"old text", "block"⟩⟩], [⟨"hallo", some 0⟩]⟩ =
      ⟨none, [⟨some ⟨"old text", "block"⟩⟩], [⟨"hallo", some 0⟩]⟩ :=
  ⟨(showStoredSubtitle_absent_pending_untouched [("hallo", none)]
      ⟨none, [⟨some ⟨"old text", "block"⟩⟩], [⟨"hallo", some 0⟩]⟩
      ⟨"hallo", some 0⟩ (Or.inr (by decide))).1,
   (showStoredSubtitle_absent_pending_untouched [("hallo", none)]
      ⟨none, [⟨some ⟨"old text", "block"⟩⟩], [⟨"hallo", some 0⟩]⟩
      ⟨"hallo", some 0⟩ (Or.inr (by decide))).2 (by decide)⟩

/-! ### `waitForElement` (C6) -/

/-- Result of the promise returned by `waitForElement`: resolution with
the element found at time `t`, or rejection with the
`Timeout waiting for element` error. -/
inductive WaitOutcome
  | resolvedAt (t : Nat)
  | timedOut
deriving DecidableEq

/-- Runtime state of one `waitForElement` call: the settled value of
its promise (a promise settles once — later resolve/reject calls are
ignored), whether the `MutationObserver` is currently observing, and
whether it was created at all. -/
structure WState where
  outcome : Option WaitOutcome
  connected : Bool
  created : Bool
deriving DecidableEq

/-- The `MutationObserver` callback at time `t`: while observing, a
re-check of `document.querySelector`; on a match it disconnects and
resolves. -/
def wOnMutation (present : Nat → Bool) (s : WState) (t : Nat) : WState :=
  if s.connected && present t then
    { outcome := match s.outcome with
        | some o => some o
        | none => some (WaitOutcome.resolvedAt t),
      connected := false, created := s.created }
  else s

/-- The `setTimeout` callback: unconditionally disconnects the observer
and rejects (a no-op on an already settled promise). -/
def wOnTimer (s : WState) : WState :=
  { outcome := match s.outcome with
      | some o => some o
      | none => some WaitOutcome.timedOut,
    connected := false, created := s.created }

/-- One full `waitForElement(selector, timeout)` call.  `present t`
says whether `document.querySelector(selector)` matches at time `t`
(time 0 is the synchronous check at call time); `muts` lists the times
of the mutation batches delivered to the observer, in order.  If the
element is present at call time the promise resolves immediately and no
observer or timer is ever created; otherwise the mutation callbacks
before the timeout run first, then the timer fires at `timeout`, then
any later mutation batches are delivered (to a then-disconnected
observer). -/
def waitForElement (present : Nat → Bool) (timeout : Nat) (muts : List Nat) : WState :=
  if present 0 then
    { outcome := some (WaitOutcome.resolvedAt 0), connected := false, created := false }
  else
    let s1 := (muts.filter (fun t => t < timeout)).foldl (wOnMutation present)
      { outcome := none, connected := true, created := true }
    let s2 := wOnTimer s1
    (muts.filter (fun t => timeout ≤ t)).foldl (wOnMutation present) s2

/-- Once disconnected, mutation callbacks change nothing. -/
theorem foldl_wOnMutation_disconnected (present : Nat → Bool) (l : List Nat)
    (s : WState) (h : s.connected = false) :
    l.foldl (wOnMutation present) s = s := by
  induction l with
  | nil => rfl
  | cons t rest ih =>
    rw [List.foldl_cons]
    have : wOnMutation present s t = s := by
      simp [wOnMutation, h]
    rw [this]
    exact ih

/-- While observing with an unsettled promise, the fold resolves at the
first mutation time at which the element is present, and stays
untouched if there is none. -/
theorem foldl_wOnMutation_fresh (present : Nat → Bool) (l : List Nat) :
    (l.find? present = none →
      l.foldl (wOnMutation present) ⟨none, true, true⟩ = ⟨none, true, true⟩) ∧
    (∀ t0, l.find? present = some t0 →
      l.foldl (wOnMutation present) ⟨none, true, true⟩ =
        ⟨some (WaitOutcome.resolvedAt t0), false, true⟩) := by
  induction l with
  | nil => exact ⟨fun _ => rfl, fun t0 h => by simp [List.find?] at h⟩
  | cons t rest ih =>
    constructor
    · intro h
      rw [List.find?_cons] at h
      cases hp : present t with
      | true => simp [hp] at h
      | false =>
        rw [hp] at h
        rw [List.foldl_cons]
        have : wOnMutation present ⟨none, true, true⟩ t = ⟨none, true, true⟩ := by
          simp [wOnMutation, hp]
        rw [this]
        exact ih.1 h
    · intro t0 h
      rw [List.find?_cons] at h
      cases hp : present t with
      | true =>
        rw [hp] at h
        have ht : t = t0 := by
          simpa using h
        subst ht
        rw [List.foldl_cons]
        have : wOnMutation present ⟨none, true, true⟩ t =
            ⟨some (WaitOutcome.resolvedAt t), false, true⟩ := by
          simp [wOnMutation, hp]
        rw [this]
        exact foldl_wOnMutation_disconnected present rest _ rfl
      | false =>
        rw [hp] at h
        rw [List.foldl_cons]
        have : wOnMutation present ⟨none, true, true⟩ t = ⟨none, true, true⟩ := by
          simp [wOnMutation, hp]
        rw [this]
        exact ih.2 t0 h

/-- **C6** — For every selector (abstracted by its match predicate
`present`) and timeout, `waitForElement` resolves with the first
matching element if one is present at call time or appears at a
mutation batch before the timeout elapses, and rejects with the timeout
error if no matching element appears within the timeout; in both
outcomes the document-wide mutation subscription it created is
released (`connected` is `false` at the end, and in the immediate case
no subscription was ever created). -/
theorem waitForElement_contract (present : Nat → Bool) (timeout : Nat)
    (muts : List Nat) :
    (present 0 = true →
      waitForElement present timeout muts =
        ⟨some (WaitOutcome.resolvedAt 0), false, false⟩) ∧
    (present 0 = false →
      ∀ t0, (muts.filter (fun t => t < timeout)).find? present = some t0 →
        (waitForElement present timeout muts).outcome =
          some (WaitOutcome.resolvedAt t0)) ∧
    (present 0 = false →
      (muts.filter (fun t => t < timeout)).find? present = none →
        (waitForElement present timeout muts).outcome = some WaitOutcome.timedOut) ∧
    (waitForElement present timeout muts).connected = false := by
  refine ⟨fun h0 => ?_, fun h0 t0 hf => ?_, fun h0 hf => ?_, ?_⟩
  · simp [waitForElement, h0]
  · have hfold := (foldl_wOnMutation_fresh present
      (muts.filter (fun t => t < timeout))).2 t0 hf
    have htimer : wOnTimer ⟨some (WaitOutcome.resolvedAt t0), false, true⟩ =
        ⟨some (WaitOutcome.resolvedAt t0), false, true⟩ := rfl
    simp only [waitForElement, h0, if_false, Bool.false_eq_true]
    rw [hfold, htimer,
      foldl_wOnMutation_disconnected present (muts.filter (fun t => timeout ≤ t)) _ rfl]
  · have hfold := (foldl_wOnMutation_fresh present
      (muts.filter (fun t => t < timeout))).1 hf
    have htimer : wOnTimer ⟨none, true, true⟩ =
        ⟨some WaitOutcome.timedOut, false, true⟩ := rfl
    simp only [waitForElement, h0, if_false, Bool.false_eq_true]
    rw [hfold, htimer,
      foldl_wOnMutation_disconnected present (muts.filter (fun t => timeout ≤ t)) _ rfl]
  · unfold waitForElement
    by_cases h0 : present 0
    · simp [h0]
    · simp only [h0, if_false, Bool.false_eq_true]
      cases hf : (muts.filter (fun t => t < timeout)).find? present with
      | none =>
        rw [(foldl_wOnMutation_fresh present (muts.filter (fun t => t < timeout))).1 hf]
        rw [foldl_wOnMutation_disconnected present (muts.filter (fun t => timeout ≤ t)) _ rfl]
        rfl
      | some t0 =>
        rw [(foldl_wOnMutation_fresh present (muts.filter (fun t => t < timeout))).2 t0 hf]
        rw [foldl_wOnMutation_disconnected present (muts.filter (fun t => timeout ≤ t)) _ rfl]
        rfl

/-- Witness for C6: with the element appearing at the mutation batch at
time 3 and a timeout of 10, the call resolves at 3; with an element
that never appears it rejects; the subscription is always released. -/
theorem waitForElement_contract_witness :
    (waitForElement (fun t => decide (3 ≤ t)) 10 [1, 3, 7]).outcome =
      some (WaitOutcome.resolvedAt 3) ∧
    (waitForElement (fun _ => false) 10 [1, 3, 7]).outcome =
      some WaitOutcome.timedOut ∧
    (waitForElement (fun t => decide (3 ≤ t)) 10 [1, 3, 7]).connected = false :=
  ⟨(waitForElement_contract (fun t => decide (3 ≤ t)) 10 [1, 3, 7]).2.1 (by decide) 3
      (by decide),
   (waitForElement_contract (fun _ => false) 10 [1, 3, 7]).2.2.1 rfl (by decide),
   (waitForElement_contract (fun t => decide (3 ≤ t)) 10 [1, 3, 7]).2.2.2⟩

/-! ### Lifecycle model (C4, C9) -/

/-- The observers the script pushes into the module-level `observers`
array: the caption-container observer, the play/pause-button observer,
and the navigation `urlObserver` created by
`setupNavigationDetection`. -/
inductive ObsTag
  | subtitle
  | playpause
  | urlwatch
deriving DecidableEq

/-- Module-level script state: the `observers` array (handles currently
connected and registered for cleanup), whether the navigation
`urlObserver` is still observing, whether the `popstate` listener is
installed (it is never removed), the recorded `currentUrl`, the delay
of a pending `setTimeout(initializeExtension, …)` scheduled by a
navigation handler resp. by the initialization retry, and the number of
`initializeExtension` runs so far. -/
structure ExtState where
  observers : List ObsTag
  urlWatchAlive : Bool
  popstateListening : Bool
  currentUrl : String
  navRestartDelay : Option Nat
  retryDelay : Option Nat
  initCount : Nat
deriving DecidableEq

/-- `cleanup()`: disconnects every observer in the `observers` array
and empties the array.  The navigation `urlObserver` stops observing
exactly when it is in the array. -/
def cleanup (s : ExtState) : ExtState :=
  { s with
    urlWatchAlive := s.urlWatchAlive && !(s.observers.contains ObsTag.urlwatch),
    observers := [] }

/-- One run of `initializeExtension()`: `cleanup()` first, then —
if the caption container is found before its timeout — the subtitle
observer is installed and, if the play/pause button is found before its
shorter timeout, the play/pause observer too (its timeout is caught and
only logged).  If the caption container times out, the `catch` block
schedules a retry of the whole initialization after the fixed 2000 ms
delay and installs nothing.  The run consumes the pending timer that
triggered it. -/
def initializeExtension (s : ExtState) (containerFound buttonFound : Bool) : ExtState :=
  let s1 := cleanup s
  let s2 := { s1 with
    initCount := s1.initCount + 1, navRestartDelay := none, retryDelay := none }
  if containerFound then
    let s3 := { s2 with observers := s2.observers ++ [ObsTag.subtitle] }
    if buttonFound then { s3 with observers := s3.observers ++ [ObsTag.playpause] }
    else s3
  else
    { s2 with retryDelay := some 2000 }

/-- `setupNavigationDetection()`: installs the `popstate` listener and
the document-wide `urlObserver`, pushing the latter into `observers`.
The script calls this exactly once, at load. -/
def setupNavigationDetection (s : ExtState) : ExtState :=
  { s with
    popstateListening := true,
    urlWatchAlive := true,
    observers := s.observers ++ [ObsTag.urlwatch] }

/-- The `popstate` handler: if the location differs from the recorded
URL, record it and schedule `initializeExtension` after the 500 ms
settle delay. -/
def popstateHandler (s : ExtState) (loc : String) : ExtState :=
  if s.popstateListening = true ∧ loc ≠ s.currentUrl then
    { s with currentUrl := loc, navRestartDelay := some 500 }
  else s

/-- The `urlObserver` callback on a document-wide mutation: fires only
while the observer is connected; same check and restart scheduling as
the `popstate` handler. -/
def urlMutationHandler (s : ExtState) (loc : String) : ExtState :=
  if s.urlWatchAlive = true ∧ loc ≠ s.currentUrl then
    { s with currentUrl := loc, navRestartDelay := some 500 }
  else s

/-- Lifecycle events: a full `initializeExtension` run (with the
outcomes of the two element waits), the one-time
`setupNavigationDetection` call, a back/forward `popstate` event, and a
document-wide mutation, the latter two carrying the current location. -/
inductive LifeEv
  | initRun (containerFound buttonFound : Bool)
  | setupNav
  | popstate (loc : String)
  | docMutation (loc : String)

/-- Effect of one lifecycle event on the script state. -/
def lifeStep (s : ExtState) : LifeEv → ExtState
  | LifeEv.initRun cf bf => initializeExtension s cf bf
  | LifeEv.setupNav => setupNavigationDetection s
  | LifeEv.popstate loc => popstateHandler s loc
  | LifeEv.docMutation loc => urlMutationHandler s loc

/-- Runs a sequence of lifecycle events. -/
def lifeRun (s : ExtState) (evts : List LifeEv) : ExtState :=
  evts.foldl lifeStep s

/-- Script state at load: nothing installed, the initial location
recorded. -/
def initialExtState : ExtState :=
  { observers := [], urlWatchAlive := false, popstateListening := false,
    currentUrl := "https://ard.example/video1", navRestartDelay := none,
    retryDelay := none, initCount := 0 }

/-- **C4 (bug evidence)** — The concrete failing trace: page load
(first `initializeExtension` run, then the one-time
`setupNavigationDetection`), an SPA navigation signalled by a
document-wide mutation — which correctly schedules a restart after the
500 ms settle delay — the scheduled re-initialization, and then a
second SPA navigation signalled by a document-wide mutation.  During
the re-initialization `cleanup()` disconnected the `urlObserver`
(it sits in the shared `observers` array) and
`setupNavigationDetection` never runs again, so in the second session
the mutation signal is dead: the final mutation, although the location
differs from the recorded URL, changes nothing and no restart is
scheduled — contradicting the claim that both navigation signals
trigger a restart in every session. -/
theorem navigation_mutation_signal_dead_after_reinit :
    (lifeRun initialExtState
      [LifeEv.initRun true true, LifeEv.setupNav,
       LifeEv.docMutation "https://ard.example/video2"]).navRestartDelay = some 500 ∧
    (lifeRun initialExtState
      [LifeEv.initRun true true, LifeEv.setupNav,
       LifeEv.docMutation "https://ard.example/video2",
       LifeEv.initRun true true]).urlWatchAlive = false ∧
    (lifeRun initialExtState
      [LifeEv.initRun true true, LifeEv.setupNav,
       LifeEv.docMutation "https://ard.example/video2",
       LifeEv.initRun true true]).currentUrl = "https://ard.example/video2" ∧
    lifeRun initialExtState
      [LifeEv.initRun true true, LifeEv.setupNav,
       LifeEv.docMutation "https://ard.example/video2",
       LifeEv.initRun true true,
       LifeEv.docMutation "https://ard.example/video3"] =
    lifeRun initialExtState
      [LifeEv.initRun true true, LifeEv.setupNav,
       LifeEv.docMutation "https://ard.example/video2",
       LifeEv.initRun true true] := by
  decide

/-- **C9** — A timeout waiting for the caption container is fatal to
the session and schedules an automatic retry of the whole
initialization after the fixed 2000 ms delay — from every state, hence
with no backoff growth and no retry cap — and installs no observers;
whereas a timeout waiting for the playback control is non-fatal:
initialization completes with the caption observer installed (caption
capture proceeds) and no retry is scheduled. -/
theorem container_timeout_fatal_button_timeout_soft :
    (∀ (s : ExtState) (buttonFound : Bool),
      (initializeExtension s false buttonFound).retryDelay = some 2000 ∧
      (initializeExtension s false buttonFound).observers = []) ∧
    (∀ s : ExtState,
      (initializeExtension s true false).retryDelay = none ∧
      (initializeExtension s true false).observers = [ObsTag.subtitle]) := by
  constructor
  · intro s buttonFound
    constructor <;> rfl
  · intro s
    constructor <;> rfl
